import Mathlib

/-!
Verification development for the oh-my-codex team runtime.

Shallow embedding of the team-state persistence layer (protocol-adapter),
the worker spawners, the platform capability probe, the runtime CLI and the
MCP cleanup path, together with proofs of the specified properties.

Conventions of the embedding:
* TypeScript `string` becomes `String`; optional / possibly-undefined fields
  become `Option _`; JavaScript numbers used as counters or counts become
  `Nat`, timestamps parsed by `Date.parse` become `Int` through an abstract
  `parse : String → Option Int` (with `none` for `NaN`).
* Filesystem reads are passed in as the parsed value `Option _` of the file
  (`none` = missing file or malformed JSON), mirroring the store contract
  that reads return null and never throw.
* JavaScript string primitives (`trim`, `startsWith`, first-occurrence
  `replace`, `Set` deduplication) are re-implemented character-wise so that
  every definition is executable and kernel-reducible.
-/

/-! ## JavaScript string and collection primitives -/

/-- Embedding of `String.prototype.trim`: drop whitespace at both ends. -/
def jsTrim (s : String) : String :=
  String.mk (((s.data.dropWhile Char.isWhitespace).reverse.dropWhile Char.isWhitespace).reverse)

/-- Embedding of `s.startsWith(p)`. -/
def jsStartsWith (s p : String) : Bool :=
  p.data.isPrefixOf s.data

/-- Embedding of `s.endsWith(p)`. -/
def jsEndsWith (s p : String) : Bool :=
  p.data.isSuffixOf s.data

/-- Substring test on character lists, used to state properties of built
command strings. -/
def containsSub (pat : List Char) : List Char → Bool
  | [] => pat.isEmpty
  | c :: cs => pat.isPrefixOf (c :: cs) || containsSub pat cs

/-- Embedding of first-occurrence `s.replace(pat, "")` (JavaScript `replace`
with a string pattern replaces only the first occurrence). -/
def removeFirstOccurrence (pat : List Char) : List Char → List Char
  | [] => []
  | c :: cs =>
    if pat.isPrefixOf (c :: cs) then (c :: cs).drop pat.length
    else c :: removeFirstOccurrence pat cs

/-- Embedding of JavaScript `Set` insertion-order deduplication, with the
already-seen elements accumulated in `seen`. -/
def jsSetDedupAux (seen : List String) : List String → List String
  | [] => []
  | a :: l => if a ∈ seen then jsSetDedupAux seen l else a :: jsSetDedupAux (a :: seen) l

/-- Embedding of `Array.from(new Set(l))`: first-occurrence order, no duplicates. -/
def jsSetDedup (l : List String) : List String :=
  jsSetDedupAux [] l

/-! ## Data model (state.ts / cli-agent-mail protocol types, as used by
protocol-adapter.ts) -/

/-- Worker identity entry of `workers[]` (state.ts `WorkerInfo`). -/
structure WorkerInfo where
  name : String
  index : Nat
  role : String
  pane_id : Option String
  deriving DecidableEq, Repr

/-- Leader identity stored on the manifest. -/
structure TeamLeader where
  session_id : String
  worker_id : String
  role : String
  deriving DecidableEq, Repr

/-- Permissions snapshot stored on the manifest. -/
structure PermissionsSnapshot where
  approval_mode : String
  sandbox_mode : String
  network_access : Bool
  deriving DecidableEq, Repr

/-- OMX team policy (state.ts `TeamPolicy`). -/
structure TeamPolicy where
  display_mode : String
  delegation_only : Bool
  plan_approval_required : Bool
  nested_teams_allowed : Bool
  one_team_per_leader_session : Bool
  cleanup_requires_all_workers_inactive : Bool
  deriving DecidableEq, Repr

/-- Policy subset carried by the cli-agent-mail protocol manifest. -/
structure ProtocolPolicy where
  delegation_only : Bool
  plan_approval_required : Bool
  cleanup_requires_all_workers_inactive : Bool
  deriving DecidableEq, Repr

/-- The `metadata` bag of the protocol manifest; every entry is optional
(`undefined` when absent). -/
structure ProtocolMetadata where
  display_mode : Option String
  nested_teams_allowed : Option Bool
  one_team_per_leader_session : Option Bool
  permissions_snapshot : Option PermissionsSnapshot
  deriving DecidableEq, Repr

/-- The cli-agent-mail `ProtocolManifest`, with exactly the fields
protocol-adapter.ts reads and writes.  Note: it carries no
`next_worker_index` field. -/
structure ProtocolManifest where
  schema_version : Nat
  name : String
  task : String
  session_handle : String
  worker_count : Nat
  workers : List WorkerInfo
  next_task_id : Nat
  created_at : String
  leader : TeamLeader
  policy : ProtocolPolicy
  metadata : Option ProtocolMetadata
  deriving DecidableEq, Repr

/-- OMX `TeamManifestV2`, with exactly the fields `protocolManifestToOmx`
produces. -/
structure TeamManifestV2 where
  schema_version : Nat
  name : String
  task : String
  leader : TeamLeader
  policy : TeamPolicy
  permissions_snapshot : PermissionsSnapshot
  tmux_session : String
  worker_count : Nat
  workers : List WorkerInfo
  next_task_id : Nat
  created_at : String
  deriving DecidableEq, Repr

/-- OMX `TeamConfig` as produced by `manifestToConfig`.  The
`leader_pane_id` / `hud_pane_id` fields exist on the TypeScript type and are
read by the cleanup path; `manifestToConfig` leaves them undefined. -/
structure TeamConfig where
  name : String
  task : String
  agent_type : String
  worker_count : Nat
  max_workers : Nat
  workers : List WorkerInfo
  created_at : String
  tmux_session : String
  next_task_id : Nat
  leader_pane_id : Option String
  hud_pane_id : Option String
  deriving DecidableEq, Repr

/-- Default worker cap re-exported from cli-agent-mail; the concrete value
does not influence any verified property. -/
def DEFAULT_MAX_WORKERS : Nat := 20

/-! ## protocol-adapter.ts: manifest converters and writes -/

/-- Embedding of `protocolManifestToOmx` (protocol-adapter.ts). -/
def protocolManifestToOmx (pm : ProtocolManifest) : TeamManifestV2 :=
  { schema_version := 2
    name := pm.name
    task := pm.task
    leader := pm.leader
    policy :=
      { display_mode := (pm.metadata.bind (·.display_mode)).getD "auto"
        delegation_only := pm.policy.delegation_only
        plan_approval_required := pm.policy.plan_approval_required
        nested_teams_allowed := (pm.metadata.bind (·.nested_teams_allowed)).getD false
        one_team_per_leader_session := (pm.metadata.bind (·.one_team_per_leader_session)).getD true
        cleanup_requires_all_workers_inactive := pm.policy.cleanup_requires_all_workers_inactive }
    permissions_snapshot :=
      (pm.metadata.bind (·.permissions_snapshot)).getD
        { approval_mode := "unknown", sandbox_mode := "unknown", network_access := true }
    tmux_session := pm.session_handle
    worker_count := pm.worker_count
    workers := pm.workers
    next_task_id := pm.next_task_id
    created_at := pm.created_at }

/-- Embedding of `omxManifestToProtocol` (protocol-adapter.ts). -/
def omxManifestToProtocol (m : TeamManifestV2) : ProtocolManifest :=
  { schema_version := 2
    name := m.name
    task := m.task
    session_handle := m.tmux_session
    worker_count := m.worker_count
    workers := m.workers
    next_task_id := m.next_task_id
    created_at := m.created_at
    leader := m.leader
    policy :=
      { delegation_only := m.policy.delegation_only
        plan_approval_required := m.policy.plan_approval_required
        cleanup_requires_all_workers_inactive := m.policy.cleanup_requires_all_workers_inactive }
    metadata := some
      { display_mode := some m.policy.display_mode
        nested_teams_allowed := some m.policy.nested_teams_allowed
        one_team_per_leader_session := some m.policy.one_team_per_leader_session
        permissions_snapshot := some m.permissions_snapshot } }

/-- Embedding of `manifestToConfig` (protocol-adapter.ts); the optional
`agentType` argument is the first parameter. -/
def manifestToConfig (m : TeamManifestV2) (agentType : Option String) : TeamConfig :=
  { name := m.name
    task := m.task
    agent_type := agentType.getD ((m.workers.head?.map (·.role)).getD "executor")
    worker_count := m.worker_count
    max_workers := DEFAULT_MAX_WORKERS
    workers := m.workers
    created_at := m.created_at
    tmux_session := m.tmux_session
    next_task_id := m.next_task_id
    leader_pane_id := none
    hud_pane_id := none }

/-- Embedding of `readTeamConfig` (protocol-adapter.ts): the stored manifest
is passed as the parsed file value (`none` = missing or malformed). -/
def readTeamConfig (stored : Option ProtocolManifest) : Option TeamConfig :=
  match stored with
  | none => none
  | some manifest => some (manifestToConfig (protocolManifestToOmx manifest) none)

/-- Embedding of `readTeamManifestV2` (protocol-adapter.ts). -/
def readTeamManifestV2 (stored : Option ProtocolManifest) : Option TeamManifestV2 :=
  match stored with
  | none => none
  | some manifest => some (protocolManifestToOmx manifest)

/-- Embedding of `writeTeamManifestV2` (protocol-adapter.ts): the value
persisted through `camWriteManifest`. -/
def writeTeamManifestV2 (manifest : TeamManifestV2) : ProtocolManifest :=
  omxManifestToProtocol manifest

/-- Embedding of `saveTeamConfig` (protocol-adapter.ts): `existing` is the
manifest currently on disk; the result is the manifest value persisted. -/
def saveTeamConfig (existing : Option ProtocolManifest) (config : TeamConfig) : ProtocolManifest :=
  match existing with
  | some e =>
    { e with
      task := config.task
      session_handle := config.tmux_session
      worker_count := config.worker_count
      workers := config.workers
      next_task_id := config.next_task_id }
  | none =>
    let omxManifest : TeamManifestV2 :=
      { schema_version := 2
        name := config.name
        task := config.task
        leader := { session_id := "", worker_id := "leader-fixed", role := "coordinator" }
        policy :=
          { display_mode := "auto"
            delegation_only := false
            plan_approval_required := false
            nested_teams_allowed := false
            one_team_per_leader_session := true
            cleanup_requires_all_workers_inactive := true }
        permissions_snapshot :=
          { approval_mode := "unknown", sandbox_mode := "unknown", network_access := true }
        tmux_session := config.tmux_session
        worker_count := config.worker_count
        workers := config.workers
        next_task_id := config.next_task_id
        created_at := config.created_at }
    omxManifestToProtocol omxManifest

/-! ## protocol-adapter.ts: heartbeats -/

/-- Metadata bag of the protocol heartbeat. -/
structure ProtocolHeartbeatMetadata where
  turn_count : Option Int
  deriving DecidableEq, Repr

/-- The cli-agent-mail `ProtocolHeartbeat`. -/
structure ProtocolHeartbeat where
  pid : Int
  last_active_at : String
  status : String
  metadata : Option ProtocolHeartbeatMetadata
  deriving DecidableEq, Repr

/-- OMX `WorkerHeartbeat`. -/
structure WorkerHeartbeat where
  pid : Int
  last_turn_at : String
  turn_count : Int
  alive : Bool
  deriving DecidableEq, Repr

/-- Embedding of `protocolHeartbeatToOmx` (protocol-adapter.ts). -/
def protocolHeartbeatToOmx (ph : ProtocolHeartbeat) : WorkerHeartbeat :=
  { pid := ph.pid
    last_turn_at := ph.last_active_at
    turn_count := 0
    alive := ph.status ≠ "shutdown" }

/-- Embedding of `omxHeartbeatToProtocol` (protocol-adapter.ts). -/
def omxHeartbeatToProtocol (hb : WorkerHeartbeat) : ProtocolHeartbeat :=
  { pid := hb.pid
    last_active_at := hb.last_turn_at
    status := if hb.alive then "executing" else "shutdown"
    metadata := some { turn_count := some hb.turn_count } }

/-- Embedding of `readWorkerHeartbeat` (protocol-adapter.ts): recovers
`turn_count` from the protocol metadata when it is a number. -/
def readWorkerHeartbeat (stored : Option ProtocolHeartbeat) : Option WorkerHeartbeat :=
  match stored with
  | none => none
  | some hb =>
    let turnCount := match hb.metadata.bind (·.turn_count) with
      | some n => n
      | none => 0
    let result := protocolHeartbeatToOmx hb
    some { result with turn_count := turnCount }

/-- Embedding of `updateWorkerHeartbeat` (protocol-adapter.ts): the protocol
heartbeat value persisted through `camWriteHeartbeat`. -/
def updateWorkerHeartbeat (heartbeat : WorkerHeartbeat) : ProtocolHeartbeat :=
  omxHeartbeatToProtocol heartbeat

/-! ## protocol-adapter.ts: tasks and worker status -/

/-- Task claim record. -/
structure TeamTaskClaim where
  token : String
  worker : String
  acquired_at : String
  lease_expires_at : String
  deriving DecidableEq, Repr

/-- The cli-agent-mail `ProtocolTask`. -/
structure ProtocolTask where
  id : String
  subject : String
  description : String
  status : String
  requires_code_change : Option Bool
  owner : Option String
  result : Option String
  error : Option String
  depends_on : Option (List String)
  version : Nat
  claim : Option TeamTaskClaim
  created_at : String
  completed_at : Option String
  deriving DecidableEq, Repr

/-- OMX `TeamTaskV2`. -/
structure TeamTaskV2 where
  id : String
  subject : String
  description : String
  status : String
  requires_code_change : Option Bool
  owner : Option String
  result : Option String
  error : Option String
  blocked_by : List String
  depends_on : List String
  version : Nat
  claim : Option TeamTaskClaim
  created_at : String
  completed_at : Option String
  deriving DecidableEq, Repr

/-- Embedding of `protocolTaskToOmx` (protocol-adapter.ts). -/
def protocolTaskToOmx (pt : ProtocolTask) : TeamTaskV2 :=
  { id := pt.id
    subject := pt.subject
    description := pt.description
    status := pt.status
    requires_code_change := pt.requires_code_change
    owner := pt.owner
    result := pt.result
    error := pt.error
    blocked_by := pt.depends_on.getD []
    depends_on := pt.depends_on.getD []
    version := pt.version
    claim := pt.claim
    created_at := pt.created_at
    completed_at := pt.completed_at }

/-- Embedding of `readTask` (protocol-adapter.ts): `stored` is the parsed
task file (`none` = missing or malformed). -/
def readTask (stored : Option ProtocolTask) : Option TeamTaskV2 :=
  match stored with
  | none => none
  | some pt => some (protocolTaskToOmx pt)

/-- The cli-agent-mail `ProtocolWorkerStatus`. -/
structure ProtocolWorkerStatus where
  state : String
  current_task_id : Option String
  reason : Option String
  updated_at : String
  deriving DecidableEq, Repr

/-- OMX `WorkerStatus`. -/
structure WorkerStatus where
  state : String
  current_task_id : Option String
  reason : Option String
  updated_at : String
  deriving DecidableEq, Repr

/-- Embedding of `protocolWorkerStatusToOmx` (protocol-adapter.ts). -/
def protocolWorkerStatusToOmx (ps : ProtocolWorkerStatus) : WorkerStatus :=
  { state := ps.state
    current_task_id := ps.current_task_id
    reason := ps.reason
    updated_at := ps.updated_at }

/-- Embedding of `readWorkerStatus` (protocol-adapter.ts): on a missing or
malformed status file it does NOT return null; it builds a placeholder
status with state `unknown` and the current time. -/
def readWorkerStatus (now : String) (stored : Option ProtocolWorkerStatus) : WorkerStatus :=
  match stored with
  | none => { state := "unknown", current_task_id := none, reason := none, updated_at := now }
  | some status => protocolWorkerStatusToOmx status

/-! ## protocol-adapter.ts: shutdown ack -/

/-- The cli-agent-mail `ShutdownAck` as read back from the signal file. -/
structure CamShutdownAck where
  status : String
  reason : Option String
  updated_at : Option String
  deriving DecidableEq, Repr

/-- Embedding of `readShutdownAck` (protocol-adapter.ts).  `parse` stands for
`Date.parse` (`none` = `NaN`), `file` is the parsed signal file, and
`minUpdatedAt` the optional freshness floor. -/
def readShutdownAck (parse : String → Option Int) (file : Option CamShutdownAck)
    (minUpdatedAt : Option String) : Option CamShutdownAck :=
  match file with
  | none => none
  | some parsed =>
    if parsed.status ≠ "accept" ∧ parsed.status ≠ "reject" then none
    else
      match minUpdatedAt with
      | some m =>
        if jsTrim m ≠ "" then
          match parse m, parse (parsed.updated_at.getD "") with
          | some minTs, some ackTs => if ackTs < minTs then none else some parsed
          | some _, none => none
          | none, _ => none
        else some parsed
      | none => some parsed

/-! ## protocol-adapter.ts: messaging and events -/

/-- The cli-agent-mail `ProtocolMessage`.  The TypeScript fields `from` and
`to` are rendered as `msg_from` / `msg_to` (`from` is a Lean keyword);
`message_id` is modelled as the allocation counter value. -/
structure ProtocolMessage where
  message_id : Nat
  msg_from : String
  msg_to : String
  body : String
  created_at : String
  notified_at : Option String
  delivered_at : Option String
  deriving DecidableEq, Repr

/-- OMX `TeamMailboxMessage`. -/
structure TeamMailboxMessage where
  message_id : Nat
  from_worker : String
  to_worker : String
  body : String
  created_at : String
  notified_at : Option String
  delivered_at : Option String
  deriving DecidableEq, Repr

/-- Embedding of `protocolMessageToOmx` (protocol-adapter.ts). -/
def protocolMessageToOmx (pm : ProtocolMessage) : TeamMailboxMessage :=
  { message_id := pm.message_id
    from_worker := pm.msg_from
    to_worker := pm.msg_to
    body := pm.body
    created_at := pm.created_at
    notified_at := pm.notified_at
    delivered_at := pm.delivered_at }

/-- Event record as handed to `camAppendEvent` by protocol-adapter.ts. -/
structure TeamEvent where
  team : String
  type : String
  worker : Option String
  task_id : Option String
  message_id : Option Nat
  reason : Option String
  deriving DecidableEq, Repr

/-- Modelled from the spec: `camBroadcastMessage` (cli-agent-mail, not part
of this snapshot).  Per the mailbox design, a broadcast fans a direct send
out to the given targets and each appended message receives a freshly
auto-allocated (hence distinct) message id and the current timestamp. -/
def camBroadcastMessage (fromWorker body now : String) :
    List String → Nat → List ProtocolMessage
  | [], _ => []
  | t :: ts, nextId =>
    { message_id := nextId
      msg_from := fromWorker
      msg_to := t
      body := body
      created_at := now
      notified_at := none
      delivered_at := none } :: camBroadcastMessage fromWorker body now ts (nextId + 1)

/-- Embedding of `broadcastMessage` (protocol-adapter.ts): `cfg` is the team
config read for `teamName` (`none` makes the function throw, modelled as
`none`); the result pairs the returned messages with the events appended. -/
def broadcastMessage (cfg : Option TeamConfig) (teamName fromWorker body : String)
    (nextId : Nat) (now : String) : Option (List TeamMailboxMessage × List TeamEvent) :=
  match cfg with
  | none => none
  | some c =>
    let targets := (c.workers.map (·.name)).filter (fun n => n ≠ fromWorker)
    let msgs := camBroadcastMessage fromWorker body now targets nextId
    let events := msgs.map fun pm =>
      ({ team := teamName
         type := "message_received"
         worker := some pm.msg_to
         task_id := none
         message_id := some pm.message_id
         reason := none } : TeamEvent)
    some (msgs.map protocolMessageToOmx, events)

/-! ## spawner.ts (part_010): worker spawners -/

/-- Single-quote character, written via its code point to keep shell-quoting
definitions free of quote literals. -/
def squote : Char := Char.ofNat 39

/-- Backslash character. -/
def backslashChar : Char := Char.ofNat 92

/-- Character-wise embedding of `value.replace(/'/g, ...)`: every single
quote becomes quote-backslash-quote-quote. -/
def escapeSingleQuotes : List Char → List Char
  | [] => []
  | c :: cs =>
    if c = squote then squote :: backslashChar :: squote :: squote :: escapeSingleQuotes cs
    else c :: escapeSingleQuotes cs

/-- Embedding of `shellQuoteSingle` (spawner.ts). -/
def shellQuoteSingle (value : String) : String :=
  String.mk (squote :: (escapeSingleQuotes value.data ++ [squote]))

/-- Embedding of `SpawnConfig` (spawner.ts).  `rcFile` is `string | null`;
the other optional fields may be undefined. -/
structure SpawnConfig where
  teamName : String
  workerName : String
  workerIndex : Nat
  modelInstructionsFile : Option String
  model : Option String
  workingDirectory : Option String
  shell : String
  rcFile : Option String
  launchArgs : List String
  deriving DecidableEq, Repr

/-- Embedding of the `const rcPrefix = config.rcFile ? ... : ''` expression
shared by both spawners.  JavaScript truthiness makes the guard empty both
for `null` and for the empty string. -/
def rcSourceGuard (rcFile : Option String) : String :=
  match rcFile with
  | some rc =>
    if rc ≠ "" then "if [ -f " ++ rc ++ " ]; then source " ++ rc ++ "; fi; " else ""
  | none => ""

/-- Embedding of the `codexArgs` / `codexInvocation` consts of
`CodexSpawner.buildCommand` (spawner.ts). -/
def codexInvocationOf (launchArgs : List String) : String :=
  let codexArgs := String.intercalate " " (launchArgs.map shellQuoteSingle)
  if codexArgs.length > 0 then "exec codex " ++ codexArgs else "exec codex"

/-- Embedding of `CodexSpawner.buildCommand` (spawner.ts). -/
def CodexSpawner.buildCommand (config : SpawnConfig) : String :=
  "env OMX_TEAM_WORKER=" ++ config.teamName ++ "/worker-" ++ Nat.repr config.workerIndex
    ++ " " ++ shellQuoteSingle config.shell ++ " -lc "
    ++ shellQuoteSingle (rcSourceGuard config.rcFile ++ codexInvocationOf config.launchArgs)

/-- Embedding of the `claudeArgs` building of `ClaudeCodeSpawner.buildCommand`
(spawner.ts).  The `if (config.modelInstructionsFile)` truthiness check skips
the `--system-prompt` pair for both undefined and empty values. -/
def claudeArgsOf (config : SpawnConfig) : List String :=
  ["--dangerously-skip-permissions"]
    ++ (match config.modelInstructionsFile with
        | some f => if f ≠ "" then ["--system-prompt", f] else []
        | none => [])
    ++ config.launchArgs

/-- Embedding of the `argsStr` / `claudeInvocation` consts of
`ClaudeCodeSpawner.buildCommand` (spawner.ts). -/
def claudeInvocationOf (config : SpawnConfig) : String :=
  "exec claude " ++ String.intercalate " " ((claudeArgsOf config).map shellQuoteSingle)

/-- Embedding of `ClaudeCodeSpawner.buildCommand` (spawner.ts). -/
def ClaudeCodeSpawner.buildCommand (config : SpawnConfig) : String :=
  "env OMX_TEAM_WORKER=" ++ config.teamName ++ "/worker-" ++ Nat.repr config.workerIndex
    ++ " CLAUDECODE=1 " ++ shellQuoteSingle config.shell ++ " -lc "
    ++ shellQuoteSingle (rcSourceGuard config.rcFile ++ claudeInvocationOf config)

/-! ## platform/capabilities.ts: tmux capability probe -/

/-- Outcome of `spawnSync('tmux', ['-V'])`: `error` is set when the spawn
itself failed; `status` is the exit status (`none` = null). -/
structure SpawnSyncResult where
  error : Bool
  status : Option Int
  deriving DecidableEq, Repr

/-- Embedding of `detectTmuxAvailability` (capabilities.ts) as one explicit
state transition: `force` is `OMX_FORCE_TMUX_TRANSPORT`, `cached` the module
cache before the call, `probe` the would-be result of running the tmux
binary.  Returns (reported availability, cache after the call, whether the
probe actually ran). -/
def detectTmuxAvailability (force : Option String) (cached : Option Bool)
    (probe : SpawnSyncResult) : Bool × Option Bool × Bool :=
  if force = some "1" then (true, cached, false)
  else if force = some "0" then (false, cached, false)
  else
    match cached with
    | some c => (c, cached, false)
    | none =>
      if probe.error then (false, some false, true)
      else (decide (probe.status = some 0), some (decide (probe.status = some 0)), true)

/-- Number of times the tmux probe actually runs across a sequence of
`detectTmuxAvailability` calls (each with its own override value and
would-be probe outcome), starting from cache state `cached`. -/
def detectTmuxProbeCount (cached : Option Bool) :
    List (Option String × SpawnSyncResult) → Nat
  | [] => 0
  | (force, probe) :: rest =>
    let step := detectTmuxAvailability force cached probe
    (if step.2.2 then 1 else 0) + detectTmuxProbeCount step.2.1 rest

/-! ## team/runtime-cli.ts -/

/-- Final status of the runtime CLI. -/
inductive FinalStatus where
  | completed
  | failed
  deriving DecidableEq, Repr

/-- Embedding of `exitCodeFor` (runtime-cli.ts). -/
def exitCodeFor : FinalStatus → Nat
  | .completed => 0
  | .failed => 1

/-- One entry of `taskResults` in the CLI output. -/
structure TaskResult where
  taskId : String
  status : String
  summary : String
  deriving DecidableEq, Repr

/-- Embedding of `CliOutput` (runtime-cli.ts): the JSON object written to
standard output has exactly these fields. -/
structure CliOutput where
  status : FinalStatus
  teamName : String
  taskResults : List TaskResult
  duration : Nat
  workerCount : Nat
  deriving DecidableEq, Repr

/-- Parsed shape of one task file as read by `collectTaskResults`; every
field may be absent. -/
structure TaskFileJson where
  id : Option String
  status : Option String
  result : Option String
  summary : Option String
  deriving DecidableEq, Repr

/-- Embedding of `collectTaskResults` (runtime-cli.ts): `dir` is the listing
of the tasks directory (`none` = `readdirSync` threw), each entry a file
name with its parsed JSON (`none` = read or parse threw). -/
def collectTaskResults (dir : Option (List (String × Option TaskFileJson))) : List TaskResult :=
  match dir with
  | none => []
  | some files =>
    (files.filter (fun f => jsEndsWith f.1 ".json")).map fun f =>
      match f.2 with
      | none =>
        { taskId := String.mk (removeFirstOccurrence ".json".data f.1.data)
          status := "unknown", summary := "" }
      | some task =>
        { taskId := task.id.getD (String.mk (removeFirstOccurrence ".json".data f.1.data))
          status := task.status.getD "unknown"
          summary := (task.result.or task.summary).getD "" }

/-- Embedding of `doShutdown` (runtime-cli.ts): the structured line written
to standard output and the process exit code, as a function of the final
status and the collected results. -/
def doShutdown (status : FinalStatus) (teamName : String)
    (taskResults : List TaskResult) (duration workerCount : Nat) : CliOutput × Nat :=
  ({ status := status
     teamName := teamName
     taskResults := taskResults
     duration := duration
     workerCount := workerCount }, exitCodeFor status)

/-- Embedding of `detectDeadWorkerFailure` (runtime-cli.ts). -/
def detectDeadWorkerFailure (deadWorkerCount liveWorkerPaneCount : Nat)
    (hasOutstandingWork : Bool) (phase : String) : Bool × Bool :=
  let allWorkersDead :=
    decide (liveWorkerPaneCount > 0) && decide (deadWorkerCount ≥ liveWorkerPaneCount)
  (allWorkersDead && hasOutstandingWork, (phase == "team-fix") && allWorkersDead)

/-! ## mcp/team-server.ts (part_014): cleanup target resolution -/

/-- Parsed shape of the `<jobId>-panes.json` side-file: `paneIds` is `none`
when absent or not an array, entries are `none` when not strings;
`leaderPaneId` is `none` when absent or not a string. -/
structure PanesFileJson where
  paneIds : Option (List (Option String))
  leaderPaneId : Option String
  deriving DecidableEq, Repr

/-- Embedding of `loadPaneIds` (team-server.ts): keeps the raw (untrimmed)
pane ids whose trimmed form starts with a percent sign, and the trimmed
leader pane id when valid. -/
def loadPaneIds (file : Option PanesFileJson) : Option (List String × String) :=
  match file with
  | none => none
  | some parsed =>
    let paneIds := (parsed.paneIds.getD []).filterMap fun e =>
      e.bind fun s => if jsStartsWith (jsTrim s) "%" then some s else none
    let leaderPaneId := match parsed.leaderPaneId with
      | some s => if jsStartsWith (jsTrim s) "%" then jsTrim s else ""
      | none => ""
    some (paneIds, leaderPaneId)

/-- Embedding of `normalizePaneId` (team-server.ts). -/
def normalizePaneId (value : Option String) : Option String :=
  value.bind fun s =>
    let trimmed := jsTrim s
    if jsStartsWith trimmed "%" then some trimmed else none

/-- Embedding of `listLiveSessionPaneIds` (team-server.ts): `exitCode` and
`outputLines` stand for the tmux `list-panes` subprocess result. -/
def listLiveSessionPaneIds (sessionName : String) (exitCode : Option Int)
    (outputLines : List String) : List String :=
  if jsTrim sessionName = "" then []
  else if exitCode ≠ some 0 then []
  else (outputLines.map jsTrim).filter (fun paneId => jsStartsWith paneId "%")

/-- Worker pane ids contributed by the panes side-file. -/
def paneFileIdsOf (panes : Option (List String × String)) : List String :=
  (panes.map (·.1)).getD []

/-- Worker pane ids contributed by the team manifest's `workers[]`. -/
def configWorkerPaneIdsOf (config : Option TeamConfig) : List String :=
  ((config.map (·.workers)).getD []).filterMap fun worker => normalizePaneId worker.pane_id

/-- Counts reported in the cleanup summary. -/
structure CleanupCounts where
  from_panes_file : Nat
  from_team_config : Nat
  from_live_session : Nat
  deduped_total : Nat
  deriving DecidableEq, Repr

/-- Result of `resolveCleanupTargets`. -/
structure CleanupSelection where
  targets : List String
  leaderPaneId : String
  hudPaneId : String
  counts : CleanupCounts
  deriving DecidableEq, Repr

/-- Embedding of `resolveCleanupTargets` (team-server.ts): `panesFile` is
the parsed side-file, `config` the team config read for the job, and
`tmuxExit` / `tmuxLines` the `tmux list-panes` subprocess result. -/
def resolveCleanupTargets (panesFile : Option PanesFileJson) (config : Option TeamConfig)
    (tmuxExit : Option Int) (tmuxLines : List String) : CleanupSelection :=
  let panes := loadPaneIds panesFile
  let paneFileSet := jsSetDedup (paneFileIdsOf panes)
  let paneFileLeader := normalizePaneId (panes.map (·.2))
  let configSet := jsSetDedup (configWorkerPaneIdsOf config)
  let knownIdentity := jsSetDedup (paneFileSet ++ configSet)
  let liveSessionPaneIds := match config with
    | some c =>
      if c.tmux_session ≠ "" then listLiveSessionPaneIds c.tmux_session tmuxExit tmuxLines
      else []
    | none => []
  let liveIntersection := liveSessionPaneIds.filter (fun paneId => knownIdentity.contains paneId)
  let liveIntersectionSet := jsSetDedup liveIntersection
  let deduped := jsSetDedup (knownIdentity ++ liveIntersectionSet)
  { targets := deduped
    leaderPaneId := ((normalizePaneId (config.bind (·.leader_pane_id))).or paneFileLeader).getD ""
    hudPaneId := (normalizePaneId (config.bind (·.hud_pane_id))).getD ""
    counts :=
      { from_panes_file := paneFileSet.length
        from_team_config := configSet.length
        from_live_session := liveIntersectionSet.length
        deduped_total := deduped.length } }

/-- Modelled from the spec: `killWorkerPanes` (src/team/tmux-session.ts is
absent from this snapshot; only its caller is here).  Per the shutdown
design, the kill routine must exclude the leader slot and the HUD slot
explicitly and must restrict targets to addresses observed live in the
transport session, and every accepted address is validated to carry the
leading percent prefix.  `livePaneIds` is the session listing the routine
takes at kill time; the result is the set of addresses actually killed. -/
def killWorkerPanes (targets : List String) (leaderPaneId : String)
    (hudPaneId : String) (livePaneIds : List String) : List String :=
  targets.filter fun addr =>
    jsStartsWith addr "%" && addr != leaderPaneId && addr != hudPaneId
      && livePaneIds.contains addr

/-! ## General lemmas about the embedded primitives -/

theorem mem_of_mem_jsSetDedupAux (a : String) :
    ∀ (seen l : List String), a ∈ jsSetDedupAux seen l → a ∈ l := by
  intro seen l
  induction l generalizing seen with
  | nil => intro h; exact absurd h (by simp [jsSetDedupAux])
  | cons b t ih =>
    intro h
    by_cases hb : b ∈ seen
    · simp only [jsSetDedupAux, if_pos hb] at h
      exact List.mem_cons_of_mem b (ih seen h)
    · simp only [jsSetDedupAux, if_neg hb] at h
      rcases List.mem_cons.mp h with h1 | h2
      · exact h1 ▸ List.mem_cons_self b t
      · exact List.mem_cons_of_mem b (ih (b :: seen) h2)

theorem mem_of_mem_jsSetDedup (a : String) (l : List String) :
    a ∈ jsSetDedup l → a ∈ l :=
  mem_of_mem_jsSetDedupAux a [] l

/-! ## Claim theorems -/

/-- C6: writing a persisted entity and reading it back yields the same
value.  For every version-2 team manifest, `protocolManifestToOmx` inverts
`omxManifestToProtocol`; and for every worker heartbeat, writing it with
`updateWorkerHeartbeat` and reading the stored value back with
`readWorkerHeartbeat` returns the identical heartbeat (pid, last_turn_at,
turn_count and alive all round-trip). -/
theorem manifest_heartbeat_roundtrip (m : TeamManifestV2) (hb : WorkerHeartbeat)
    (h : m.schema_version = 2) :
    protocolManifestToOmx (omxManifestToProtocol m) = m ∧
    readWorkerHeartbeat (some (updateWorkerHeartbeat hb)) = some hb := by
  constructor
  · obtain ⟨sv, nm, tk, ld, pol, ps, ts, wc, ws, nti, ca⟩ := m
    obtain rfl : sv = 2 := h
    rfl
  · obtain ⟨pid, lt, tc, al⟩ := hb
    cases al <;> rfl

/-- Witness for C6 at a concrete manifest and heartbeat. -/
theorem manifest_heartbeat_roundtrip_witness :
    protocolManifestToOmx (omxManifestToProtocol
      ⟨2, "t", "tk", ⟨"s", "leader-fixed", "coordinator"⟩,
        ⟨"auto", false, false, false, true, true⟩, ⟨"unknown", "unknown", true⟩,
        "omx-team-t", 1, [], 3, "now"⟩) =
      ⟨2, "t", "tk", ⟨"s", "leader-fixed", "coordinator"⟩,
        ⟨"auto", false, false, false, true, true⟩, ⟨"unknown", "unknown", true⟩,
        "omx-team-t", 1, [], 3, "now"⟩ ∧
    readWorkerHeartbeat (some (updateWorkerHeartbeat ⟨42, "now", 7, true⟩)) =
      some ⟨42, "now", 7, true⟩ :=
  manifest_heartbeat_roundtrip _ _ rfl

/-- C2 counterexample: two successive successful manifest writes through
`saveTeamConfig` where the later persisted `next_task_id` (3) is strictly
below the earlier one (5); the write layer imposes no monotonicity. -/
theorem saveTeamConfig_counter_decreases :
    (saveTeamConfig none ⟨"t", "tk", "codex", 1, 20, [], "c", "s", 5, none, none⟩).next_task_id = 5 ∧
    (saveTeamConfig
        (some (saveTeamConfig none ⟨"t", "tk", "codex", 1, 20, [], "c", "s", 5, none, none⟩))
        ⟨"t", "tk", "codex", 1, 20, [], "c", "s", 3, none, none⟩).next_task_id = 3 ∧
    ¬ (5 ≤ 3) :=
  ⟨rfl, rfl, by decide⟩

/-- C2 (amended): every manifest write persists exactly the caller-supplied
`next_task_id` (the persisted manifest has no `next_worker_index` field at
all), so successive writes carry non-decreasing counters precisely when the
callers supply non-decreasing values. -/
theorem saveTeamConfig_next_task_id (existing : Option ProtocolManifest)
    (config : TeamConfig) (m : TeamManifestV2) :
    (saveTeamConfig existing config).next_task_id = config.next_task_id ∧
    (writeTeamManifestV2 m).next_task_id = m.next_task_id ∧
    (∀ c2 : TeamConfig, config.next_task_id ≤ c2.next_task_id →
      (saveTeamConfig existing config).next_task_id ≤
        (saveTeamConfig (some (saveTeamConfig existing config)) c2).next_task_id) := by
  refine ⟨?_, rfl, ?_⟩
  · cases existing <;> rfl
  · intro c2 h
    cases existing <;> simpa using h

/-- Witness for C2's amended theorem at concrete configs. -/
theorem saveTeamConfig_next_task_id_witness :
    (saveTeamConfig none ⟨"t", "tk", "codex", 1, 20, [], "c", "s", 3, none, none⟩).next_task_id ≤
      (saveTeamConfig
        (some (saveTeamConfig none ⟨"t", "tk", "codex", 1, 20, [], "c", "s", 3, none, none⟩))
        ⟨"t", "tk", "codex", 1, 20, [], "c", "s", 4, none, none⟩).next_task_id :=
  (saveTeamConfig_next_task_id none _
    ⟨2, "t", "tk", ⟨"", "", ""⟩, ⟨"auto", false, false, false, true, true⟩,
      ⟨"unknown", "unknown", true⟩, "s", 1, [], 1, "c"⟩).2.2
    ⟨"t", "tk", "codex", 1, 20, [], "c", "s", 4, none, none⟩ (by decide)

/-- C4 counterexample: on a missing (or malformed) status file,
`readWorkerStatus` does not return null; it returns a placeholder status
object with state `unknown` and the current time. -/
theorem readWorkerStatus_missing_not_null :
    readWorkerStatus "2026-01-01T00:00:00Z" none =
      { state := "unknown", current_task_id := none, reason := none,
        updated_at := "2026-01-01T00:00:00Z" } :=
  rfl

/-- C4 (amended): reads of tasks, worker heartbeats and the team
manifest/config return null when the underlying file is missing or its JSON
is malformed, and no read throws (all are total); the worker-status read
alone returns a placeholder with state `unknown` instead of null. -/
theorem reads_null_on_missing (now : String) :
    readTask none = none ∧
    readWorkerHeartbeat none = none ∧
    readTeamConfig none = none ∧
    readTeamManifestV2 none = none ∧
    readWorkerStatus now none =
      { state := "unknown", current_task_id := none, reason := none, updated_at := now } :=
  ⟨rfl, rfl, rfl, rfl, rfl⟩

/-- C10: with zero recorded live worker panes, `detectDeadWorkerFailure`
reports neither failure condition; `deadWorkerFailure` holds exactly when at
least one live pane is recorded, the dead-worker count reaches the live pane
count and outstanding work remains; `fixingWithNoWorkers` holds exactly in
phase team-fix with all recorded workers dead. -/
theorem detectDeadWorkerFailure_spec (d l : Nat) (w : Bool) (p : String) :
    (l = 0 → detectDeadWorkerFailure d l w p = (false, false)) ∧
    ((detectDeadWorkerFailure d l w p).1 = true ↔ 0 < l ∧ l ≤ d ∧ w = true) ∧
    ((detectDeadWorkerFailure d l w p).2 = true ↔ p = "team-fix" ∧ 0 < l ∧ l ≤ d) := by
  refine ⟨?_, ?_, ?_⟩
  · rintro rfl
    simp [detectDeadWorkerFailure]
  · simp [detectDeadWorkerFailure, and_assoc, ge_iff_le]
  · constructor
    · intro h
      simp only [detectDeadWorkerFailure, Bool.and_eq_true, beq_iff_eq,
        decide_eq_true_eq, gt_iff_lt, ge_iff_le] at h
      exact ⟨h.1, h.2.1, h.2.2⟩
    · rintro ⟨rfl, h1, h2⟩
      simp [detectDeadWorkerFailure, h1, h2]

/-- Witness for C10 at zero live panes. -/
theorem detectDeadWorkerFailure_spec_witness :
    detectDeadWorkerFailure 3 0 true "team-exec" = (false, false) :=
  (detectDeadWorkerFailure_spec 3 0 true "team-exec").1 rfl

/-- C9: on shutdown the runtime CLI exits with code 0 exactly when the final
status is completed and 1 exactly when it is failed, and the single
structured object written to standard output carries exactly the final
status, team name, collected task results, duration and worker count, where
each collected task result consists of the task id (falling back to the file
name), the status (defaulting to `unknown`) and the summary (result, then
summary, then empty). -/
theorem runtime_cli_shutdown_contract (status : FinalStatus) (teamName : String)
    (taskResults : List TaskResult) (duration workerCount : Nat) :
    ((doShutdown status teamName taskResults duration workerCount).2 = 0 ↔
      status = FinalStatus.completed) ∧
    ((doShutdown status teamName taskResults duration workerCount).2 = 1 ↔
      status = FinalStatus.failed) ∧
    (doShutdown status teamName taskResults duration workerCount).1 =
      ⟨status, teamName, taskResults, duration, workerCount⟩ ∧
    collectTaskResults none = [] ∧
    (∀ f t rest, jsEndsWith f ".json" = true →
      collectTaskResults (some ((f, some t) :: rest)) =
        { taskId := t.id.getD (String.mk (removeFirstOccurrence ".json".data f.data))
          status := t.status.getD "unknown"
          summary := (t.result.or t.summary).getD "" } :: collectTaskResults (some rest)) := by
  refine ⟨?_, ?_, rfl, rfl, ?_⟩
  · cases status <;> simp [doShutdown, exitCodeFor]
  · cases status <;> simp [doShutdown, exitCodeFor]
  · intro f t rest h
    simp [collectTaskResults, h]

/-- Witness for C9: a shutdown with failed status and one parsed task file. -/
theorem runtime_cli_shutdown_contract_witness :
    collectTaskResults (some [("1.json", some ⟨some "1", some "completed", some "ok", none⟩)]) =
      { taskId := "1", status := "completed", summary := "ok" } :: collectTaskResults (some []) :=
  (runtime_cli_shutdown_contract FinalStatus.failed "t" [] 0 1).2.2.2.2
    "1.json" ⟨some "1", some "completed", some "ok", none⟩ [] (by decide)

/-- C3: with a non-blank freshness floor, `readShutdownAck` returns an ack
exactly when the stored signal file holds that ack, its status is accept or
reject, and both the floor and the ack's `updated_at` parse to timestamps
with the ack not earlier than the floor; in every other case (missing file,
other status, unparseable or stale timestamp) it returns null. -/
theorem readShutdownAck_spec (parse : String → Option Int) (file : Option CamShutdownAck)
    (m : String) (ack : CamShutdownAck) (hm : jsTrim m ≠ "") :
    readShutdownAck parse file (some m) = some ack ↔
      (file = some ack ∧ (ack.status = "accept" ∨ ack.status = "reject") ∧
        ∃ minTs ackTs, parse m = some minTs ∧
          parse (ack.updated_at.getD "") = some ackTs ∧ minTs ≤ ackTs) := by
  cases file with
  | none => simp [readShutdownAck]
  | some a =>
    simp only [readShutdownAck]
    by_cases hs : a.status ≠ "accept" ∧ a.status ≠ "reject"
    · rw [if_pos hs]
      constructor
      · intro h; cases h
      · rintro ⟨ha, hval, -⟩
        obtain rfl : a = ack := by injection ha
        rcases hval with h1 | h1
        · exact absurd h1 hs.1
        · exact absurd h1 hs.2
    · rw [if_neg hs, if_pos hm]
      rw [not_and_or, not_not, not_not] at hs
      cases hp : parse m with
      | none =>
        cases hq : parse (a.updated_at.getD "") with
        | none =>
          constructor
          · intro h; exact Option.noConfusion h
          · rintro ⟨ha, -, t1, t2, e1, -, -⟩
            exact Option.noConfusion e1
        | some ackTs =>
          constructor
          · intro h; exact Option.noConfusion h
          · rintro ⟨ha, -, t1, t2, e1, -, -⟩
            exact Option.noConfusion e1
      | some minTs =>
        cases hq : parse (a.updated_at.getD "") with
        | none =>
          constructor
          · intro h; exact Option.noConfusion h
          · rintro ⟨ha, -, t1, t2, -, e2, -⟩
            obtain rfl : a = ack := by injection ha
            rw [hq] at e2; exact Option.noConfusion e2
        | some ackTs =>
          show (if ackTs < minTs then (none : Option CamShutdownAck) else some a) = some ack ↔ _
          by_cases hlt : ackTs < minTs
          · rw [if_pos hlt]
            constructor
            · intro h; exact Option.noConfusion h
            · rintro ⟨ha, -, t1, t2, e1, e2, hle⟩
              obtain rfl : a = ack := by injection ha
              injection e1 with e1
              rw [hq] at e2; injection e2 with e2
              subst e1; subst e2
              exact absurd hlt (not_lt.mpr hle)
          · rw [if_neg hlt]
            constructor
            · intro h
              obtain rfl : a = ack := by injection h
              exact ⟨rfl, hs, minTs, ackTs, rfl, hq, not_lt.mp hlt⟩
            · rintro ⟨ha, -, -⟩
              rw [ha]

/-- Witness for C3: a fresh accept ack written after the request time is
returned. -/
theorem readShutdownAck_spec_witness :
    readShutdownAck
      (fun s => if s = "2026-01-01T00:00:00Z" then some 100
                else if s = "2026-01-01T00:00:20Z" then some 120 else none)
      (some ⟨"accept", none, some "2026-01-01T00:00:20Z"⟩)
      (some "2026-01-01T00:00:00Z") =
      some ⟨"accept", none, some "2026-01-01T00:00:20Z"⟩ :=
  (readShutdownAck_spec _ _ _ _ (by decide)).mpr
    ⟨rfl, Or.inl rfl, 100, 120, by decide, by decide, by decide⟩

theorem detectTmuxProbeCount_of_cached (c : Bool) :
    ∀ calls : List (Option String × SpawnSyncResult),
      detectTmuxProbeCount (some c) calls = 0 := by
  intro calls
  induction calls with
  | nil => rfl
  | cons call rest ih =>
    obtain ⟨force, probe⟩ := call
    by_cases h1 : force = some "1"
    · simp [detectTmuxProbeCount, detectTmuxAvailability, h1, ih]
    · by_cases h0 : force = some "0"
      · simp [detectTmuxProbeCount, detectTmuxAvailability, h1, h0, ih]
      · simp [detectTmuxProbeCount, detectTmuxAvailability, h1, h0, ih]

/-- C8: the tmux capability report is true exactly when the version probe
runs without a spawn error and exits with status 0; the environment
override values 1 and 0 force the report to true respectively false no
matter what the cache or the probe would say; and across any sequence of
calls the probe itself runs at most once (the cached result is reused). -/
theorem detectTmuxAvailability_spec :
    (∀ calls : List (Option String × SpawnSyncResult),
      detectTmuxProbeCount none calls ≤ 1) ∧
    (∀ (cached : Option Bool) (probe : SpawnSyncResult),
      (detectTmuxAvailability (some "1") cached probe).1 = true) ∧
    (∀ (cached : Option Bool) (probe : SpawnSyncResult),
      (detectTmuxAvailability (some "0") cached probe).1 = false) ∧
    (∀ (force : Option String) (probe : SpawnSyncResult),
      force ≠ some "1" → force ≠ some "0" →
      (detectTmuxAvailability force none probe).1 =
        (!probe.error && decide (probe.status = some 0))) ∧
    (∀ (force : Option String) (c : Bool) (probe : SpawnSyncResult),
      force ≠ some "1" → force ≠ some "0" →
      detectTmuxAvailability force (some c) probe = (c, some c, false)) := by
  refine ⟨?_, ?_, ?_, ?_, ?_⟩
  · intro calls
    induction calls with
    | nil => simp [detectTmuxProbeCount]
    | cons call rest ih =>
      obtain ⟨force, probe⟩ := call
      by_cases h1 : force = some "1"
      · simpa [detectTmuxProbeCount, detectTmuxAvailability, h1] using ih
      · by_cases h0 : force = some "0"
        · simpa [detectTmuxProbeCount, detectTmuxAvailability, h1, h0] using ih
        · by_cases he : probe.error
          · simp [detectTmuxProbeCount, detectTmuxAvailability, h1, h0, he,
              detectTmuxProbeCount_of_cached]
          · simp [detectTmuxProbeCount, detectTmuxAvailability, h1, h0, he,
              detectTmuxProbeCount_of_cached]
  · intro cached probe
    simp [detectTmuxAvailability]
  · intro cached probe
    simp [detectTmuxAvailability]
  · intro force probe h1 h0
    by_cases he : probe.error <;>
      simp [detectTmuxAvailability, h1, h0, he]
  · intro force c probe h1 h0
    simp [detectTmuxAvailability, h1, h0]

/-- Witness for C8: one unforced call probes (status 0, available), the next
call reuses the cache. -/
theorem detectTmuxAvailability_spec_witness :
    detectTmuxAvailability none (some true) ⟨true, none⟩ = (true, some true, false) :=
  detectTmuxAvailability_spec.2.2.2.2 none true ⟨true, none⟩ (by decide) (by decide)

theorem camBroadcastMessage_map_to (f b now : String) :
    ∀ (ts : List String) (nid : Nat),
      (camBroadcastMessage f b now ts nid).map (·.msg_to) = ts := by
  intro ts
  induction ts with
  | nil => intro nid; rfl
  | cons t rest ih => intro nid; simp [camBroadcastMessage, ih (nid + 1)]

theorem camBroadcastMessage_id_ge (f b now : String) :
    ∀ (ts : List String) (nid x : Nat),
      x ∈ (camBroadcastMessage f b now ts nid).map (·.message_id) → nid ≤ x := by
  intro ts
  induction ts with
  | nil => intro nid x h; exact absurd h (by simp [camBroadcastMessage])
  | cons t rest ih =>
    intro nid x h
    simp only [camBroadcastMessage, List.map_cons, List.mem_cons] at h
    rcases h with rfl | h
    · exact le_refl x
    · exact Nat.le_of_succ_le (ih (nid + 1) x h)

theorem camBroadcastMessage_ids_nodup (f b now : String) :
    ∀ (ts : List String) (nid : Nat),
      ((camBroadcastMessage f b now ts nid).map (·.message_id)).Nodup := by
  intro ts
  induction ts with
  | nil => intro nid; simp [camBroadcastMessage]
  | cons t rest ih =>
    intro nid
    simp only [camBroadcastMessage, List.map_cons, List.nodup_cons]
    refine ⟨fun h => ?_, ih (nid + 1)⟩
    have := camBroadcastMessage_id_ge f b now rest (nid + 1) nid h
    omega

/-- C5: for a team whose manifest exists, `broadcastMessage` returns one
message per worker named in the manifest except the sender (in manifest
order), the returned messages carry pairwise distinct message ids, and
exactly one `message_received` event is appended per recipient, carrying
that recipient and that message id. -/
theorem broadcastMessage_spec (c : TeamConfig) (tn f b : String) (nid : Nat) (now : String)
    (msgs : List TeamMailboxMessage) (events : List TeamEvent)
    (h : broadcastMessage (some c) tn f b nid now = some (msgs, events)) :
    msgs.map (·.to_worker) = (c.workers.map (·.name)).filter (fun n => n ≠ f) ∧
    (msgs.map (·.message_id)).Nodup ∧
    events = msgs.map (fun m2 =>
      ({ team := tn, type := "message_received", worker := some m2.to_worker,
         task_id := none, message_id := some m2.message_id, reason := none } : TeamEvent)) := by
  simp only [broadcastMessage, Option.some.injEq, Prod.mk.injEq] at h
  obtain ⟨hmsgs, hevents⟩ := h
  subst hmsgs; subst hevents
  refine ⟨?_, ?_, ?_⟩
  · rw [List.map_map]
    exact camBroadcastMessage_map_to f b now _ nid
  · rw [List.map_map]
    exact camBroadcastMessage_ids_nodup f b now _ nid
  · rw [List.map_map]
    rfl

/-- Witness for C5: a two-worker team, broadcast from worker w1 reaches
exactly w2 with one event. -/
theorem broadcastMessage_spec_witness :
    ([(⟨5, "w1", "w2", "hi", "now", none, none⟩ : TeamMailboxMessage)].map (·.to_worker) =
      (([⟨"w1", 0, "executor", none⟩,
         ⟨"w2", 1, "executor", none⟩] : List WorkerInfo).map (·.name)).filter
        (fun n => n ≠ "w1")) ∧
    (([(⟨5, "w1", "w2", "hi", "now", none, none⟩ : TeamMailboxMessage)].map
        (·.message_id)).Nodup) ∧
    ([(⟨"t", "message_received", some "w2", none, some 5, none⟩ : TeamEvent)] =
      [(⟨5, "w1", "w2", "hi", "now", none, none⟩ : TeamMailboxMessage)].map
        (fun m2 => ({ team := "t", type := "message_received", worker := some m2.to_worker,
                      task_id := none, message_id := some m2.message_id,
                      reason := none } : TeamEvent))) :=
  broadcastMessage_spec
    ⟨"t", "tk", "executor", 2, 20,
      [⟨"w1", 0, "executor", none⟩, ⟨"w2", 1, "executor", none⟩],
      "c", "s", 3, none, none⟩
    "t" "w1" "hi" 5 "now"
    [⟨5, "w1", "w2", "hi", "now", none, none⟩]
    [⟨"t", "message_received", some "w2", none, some 5, none⟩] (by decide)

theorem mem_of_mem_knownIdentity (a : String) (p q : List String)
    (h : a ∈ jsSetDedup (jsSetDedup p ++ jsSetDedup q)) : a ∈ p ∨ a ∈ q := by
  rcases List.mem_append.mp (mem_of_mem_jsSetDedup a _ h) with h1 | h1
  · exact Or.inl (mem_of_mem_jsSetDedup a p h1)
  · exact Or.inr (mem_of_mem_jsSetDedup a q h1)

theorem resolveCleanupTargets_targets_known (panesFile : Option PanesFileJson)
    (config : Option TeamConfig) (tmuxExit : Option Int) (tmuxLines : List String)
    (a : String)
    (h : a ∈ (resolveCleanupTargets panesFile config tmuxExit tmuxLines).targets) :
    a ∈ paneFileIdsOf (loadPaneIds panesFile) ∨ a ∈ configWorkerPaneIdsOf config := by
  simp only [resolveCleanupTargets] at h
  rcases List.mem_append.mp (mem_of_mem_jsSetDedup a _ h) with h1 | h1
  · exact mem_of_mem_knownIdentity a _ _ h1
  · have h2 := mem_of_mem_jsSetDedup a _ h1
    have h3 := (List.mem_filter.mp h2).2
    simp only [List.contains] at h3
    exact mem_of_mem_knownIdentity a _ _ (List.elem_iff.mp h3)

/-- C1: every pane address the cleanup path hands to the kill routine that
the routine actually kills lies in the union of the side-file pane ids and
the manifest worker pane ids, is live in the tmux session at kill time, is
neither the leader pane nor the HUD pane, and starts with a percent sign. -/
theorem cleanup_kill_targets_safe (panesFile : Option PanesFileJson)
    (config : Option TeamConfig) (tmuxExit : Option Int) (tmuxLines : List String)
    (livePaneIds : List String) (a : String)
    (h : a ∈ killWorkerPanes
      (resolveCleanupTargets panesFile config tmuxExit tmuxLines).targets
      (resolveCleanupTargets panesFile config tmuxExit tmuxLines).leaderPaneId
      (resolveCleanupTargets panesFile config tmuxExit tmuxLines).hudPaneId
      livePaneIds) :
    (a ∈ paneFileIdsOf (loadPaneIds panesFile) ∨ a ∈ configWorkerPaneIdsOf config) ∧
    a ∈ livePaneIds ∧
    a ≠ (resolveCleanupTargets panesFile config tmuxExit tmuxLines).leaderPaneId ∧
    a ≠ (resolveCleanupTargets panesFile config tmuxExit tmuxLines).hudPaneId ∧
    jsStartsWith a "%" = true := by
  simp only [killWorkerPanes, List.mem_filter, Bool.and_eq_true, bne_iff_ne] at h
  obtain ⟨hmem, ⟨⟨hpct, hleader⟩, hhud⟩, hlive⟩ := h
  refine ⟨resolveCleanupTargets_targets_known panesFile config tmuxExit tmuxLines a hmem,
    ?_, hleader, hhud, hpct⟩
  simp only [List.contains] at hlive
  exact List.elem_iff.mp hlive

/-- Witness for C1: the scenario of spec test S3 — side-file panes %2 and
%3, live session lists %2, %3 and a foreign %999, leader %1; %2 is killed
and satisfies every safety condition. -/
theorem cleanup_kill_targets_safe_witness :
    ("%2" ∈ paneFileIdsOf (loadPaneIds (some ⟨some [some "%2", some "%3"], some "%1"⟩)) ∨
      "%2" ∈ configWorkerPaneIdsOf none) ∧
    "%2" ∈ ["%2", "%3", "%999"] ∧
    "%2" ≠ (resolveCleanupTargets (some ⟨some [some "%2", some "%3"], some "%1"⟩)
      none none []).leaderPaneId ∧
    "%2" ≠ (resolveCleanupTargets (some ⟨some [some "%2", some "%3"], some "%1"⟩)
      none none []).hudPaneId ∧
    jsStartsWith "%2" "%" = true :=
  cleanup_kill_targets_safe (some ⟨some [some "%2", some "%3"], some "%1"⟩)
    none none [] ["%2", "%3", "%999"] "%2" (by decide)

theorem containsSub_append_self (p t : List Char) : containsSub p (p ++ t) = true := by
  cases p with
  | nil =>
    cases t with
    | nil => rfl
    | cons c cs => simp [containsSub, List.isPrefixOf]
  | cons a as =>
    show containsSub (a :: as) (a :: (as ++ t)) = true
    have hp : (a :: as).isPrefixOf (a :: as ++ t) = true :=
      List.isPrefixOf_iff_prefix.mpr (List.prefix_append (a :: as) t)
    simp [containsSub, hp]

theorem containsSub_append_left (p l : List Char) (s : List Char)
    (h : containsSub p l = true) : containsSub p (s ++ l) = true := by
  induction s with
  | nil => simpa using h
  | cons c cs ih => simp [containsSub, ih]

theorem containsSub_of_parts (p l pre post : List Char)
    (h : l = pre ++ p ++ post) : containsSub p l = true := by
  subst h
  rw [List.append_assoc]
  exact containsSub_append_left p _ pre (containsSub_append_self p post)

theorem containsSub_nil_pat (l : List Char) : containsSub [] l = true := by
  cases l <;> simp [containsSub, List.isPrefixOf]

theorem containsSub_append_right (p l t : List Char)
    (h : containsSub p l = true) : containsSub p (l ++ t) = true := by
  induction l with
  | nil =>
    have hp : p = [] := by
      cases p with
      | nil => rfl
      | cons c cs => exact absurd h (by simp [containsSub, List.isEmpty])
    subst hp
    exact containsSub_nil_pat t
  | cons c cs ih =>
    show containsSub p (c :: (cs ++ t)) = true
    simp only [containsSub, Bool.or_eq_true] at h ⊢
    rcases h with h | h
    · exact Or.inl (List.isPrefixOf_iff_prefix.mpr
        ((List.isPrefixOf_iff_prefix.mp h).trans (List.prefix_append (c :: cs) t)))
    · exact Or.inr (ih h)

theorem escapeSingleQuotes_append (l1 l2 : List Char) :
    escapeSingleQuotes (l1 ++ l2) = escapeSingleQuotes l1 ++ escapeSingleQuotes l2 := by
  induction l1 with
  | nil => rfl
  | cons c cs ih =>
    by_cases hc : c = squote
    · simp [escapeSingleQuotes, hc, ih]
    · simp [escapeSingleQuotes, hc, ih]

theorem escapeSingleQuotes_of_not_mem (l : List Char) (h : squote ∉ l) :
    escapeSingleQuotes l = l := by
  induction l with
  | nil => rfl
  | cons c cs ih =>
    have hc : c ≠ squote := fun e => h (e ▸ List.mem_cons_self c cs)
    have hcs : squote ∉ cs := fun e => h (List.mem_cons_of_mem c e)
    simp [escapeSingleQuotes, hc, ih hcs]

theorem containsSub_str (x y z : String) : containsSub y.data (x ++ y ++ z).data = true := by
  apply containsSub_of_parts y.data _ x.data z.data
  simp [String.data_append]

/-- C7 counterexample: with `rcFile` set to the empty string — which is
non-null — neither spawner emits any rc-sourcing fragment, because the
JavaScript truthiness test treats the empty string like null. -/
theorem buildCommand_empty_rcfile_not_sourced :
    (some "" : Option String) ≠ none ∧
    containsSub ("source" : String).data
      (CodexSpawner.buildCommand
        ⟨"t", "worker-0", 0, none, none, none, "/bin/sh", some "", []⟩).data = false ∧
    containsSub ("source" : String).data
      (ClaudeCodeSpawner.buildCommand
        ⟨"t", "worker-0", 0, none, none, none, "/bin/sh", some "", []⟩).data = false :=
  ⟨by decide, by decide, by decide⟩

theorem data_mk (l : List Char) : (String.mk l).data = l := rfl

theorem escape_lit_if : escapeSingleQuotes ("if [ -f " : String).data
    = ("if [ -f " : String).data := by decide

theorem escape_lit_then : escapeSingleQuotes (" ]; then source " : String).data
    = (" ]; then source " : String).data := by decide

theorem escape_lit_fi : escapeSingleQuotes ("; fi; " : String).data
    = ("; fi; " : String).data := by decide

theorem escape_lit_exec_codex : escapeSingleQuotes ("exec codex" : String).data
    = ("exec codex" : String).data := by decide

theorem escape_lit_exec_claude : escapeSingleQuotes ("exec claude " : String).data
    = ("exec claude " : String).data := by decide

theorem escapeSingleQuotes_rcGuard (rc : String) (hq : squote ∉ rc.data) :
    escapeSingleQuotes ("if [ -f " ++ rc ++ " ]; then source " ++ rc ++ "; fi; ").data
      = ("if [ -f " ++ rc ++ " ]; then source " ++ rc ++ "; fi; ").data := by
  apply escapeSingleQuotes_of_not_mem
  simp only [String.data_append, List.mem_append, not_or]
  exact ⟨⟨⟨⟨by decide, hq⟩, by decide⟩, hq⟩, by decide⟩

/-- C7 (amended): both spawner commands assign `OMX_TEAM_WORKER` to
`<team>/worker-<index>` and invoke the configured shell as a login shell
(`-lc`); the rc-sourcing fragment, guarded by a file-existence test, is
present exactly when `rcFile` is non-null AND non-empty (JavaScript
truthiness); and the command execs the target CLI (`exec codex` /
`exec claude`) inside the quoted login-shell payload. -/
theorem spawner_buildCommand_spec (cfg : SpawnConfig) :
    containsSub ("OMX_TEAM_WORKER=" ++ cfg.teamName ++ "/worker-"
        ++ Nat.repr cfg.workerIndex).data (CodexSpawner.buildCommand cfg).data = true ∧
    containsSub ("OMX_TEAM_WORKER=" ++ cfg.teamName ++ "/worker-"
        ++ Nat.repr cfg.workerIndex).data (ClaudeCodeSpawner.buildCommand cfg).data = true ∧
    containsSub (" -lc " : String).data (CodexSpawner.buildCommand cfg).data = true ∧
    containsSub (" -lc " : String).data (ClaudeCodeSpawner.buildCommand cfg).data = true ∧
    (∀ rc : String, cfg.rcFile = some rc → rc ≠ "" → squote ∉ rc.data →
      containsSub ("if [ -f " ++ rc ++ " ]; then source " ++ rc ++ "; fi; ").data
          (CodexSpawner.buildCommand cfg).data = true ∧
      containsSub ("if [ -f " ++ rc ++ " ]; then source " ++ rc ++ "; fi; ").data
          (ClaudeCodeSpawner.buildCommand cfg).data = true) ∧
    (rcSourceGuard cfg.rcFile = "" ↔ cfg.rcFile = none ∨ cfg.rcFile = some "") ∧
    containsSub ("exec codex" : String).data (CodexSpawner.buildCommand cfg).data = true ∧
    containsSub ("exec claude " : String).data (ClaudeCodeSpawner.buildCommand cfg).data = true := by
  refine ⟨?_, ?_, ?_, ?_, ?_, ?_, ?_, ?_⟩
  · have hA : CodexSpawner.buildCommand cfg =
        "env " ++ ("OMX_TEAM_WORKER=" ++ cfg.teamName ++ "/worker-" ++ Nat.repr cfg.workerIndex)
          ++ (" " ++ shellQuoteSingle cfg.shell ++ " -lc "
              ++ shellQuoteSingle (rcSourceGuard cfg.rcFile
                    ++ codexInvocationOf cfg.launchArgs)) := by
      simp only [CodexSpawner.buildCommand]
      rw [show ("env OMX_TEAM_WORKER=" : String) = "env " ++ "OMX_TEAM_WORKER=" from rfl]
      simp only [String.append_assoc]
    rw [hA]
    exact containsSub_str _ _ _
  · have hA : ClaudeCodeSpawner.buildCommand cfg =
        "env " ++ ("OMX_TEAM_WORKER=" ++ cfg.teamName ++ "/worker-" ++ Nat.repr cfg.workerIndex)
          ++ (" CLAUDECODE=1 " ++ shellQuoteSingle cfg.shell ++ " -lc "
              ++ shellQuoteSingle (rcSourceGuard cfg.rcFile ++ claudeInvocationOf cfg)) := by
      simp only [ClaudeCodeSpawner.buildCommand]
      rw [show ("env OMX_TEAM_WORKER=" : String) = "env " ++ "OMX_TEAM_WORKER=" from rfl]
      simp only [String.append_assoc]
    rw [hA]
    exact containsSub_str _ _ _
  · simp only [CodexSpawner.buildCommand]
    exact containsSub_str _ _ _
  · simp only [ClaudeCodeSpawner.buildCommand]
    exact containsSub_str _ _ _
  · intro rc hrc hne hq
    have hg : rcSourceGuard cfg.rcFile =
        "if [ -f " ++ rc ++ " ]; then source " ++ rc ++ "; fi; " := by
      rw [hrc]
      simp [rcSourceGuard, hne]
    constructor
    · show containsSub _ (("env OMX_TEAM_WORKER=" ++ cfg.teamName ++ "/worker-"
          ++ Nat.repr cfg.workerIndex ++ " " ++ shellQuoteSingle cfg.shell ++ " -lc "
          ++ shellQuoteSingle (rcSourceGuard cfg.rcFile
              ++ codexInvocationOf cfg.launchArgs)).data) = true
      rw [String.data_append]
      apply containsSub_append_left
      show containsSub _ (squote :: (escapeSingleQuotes
        (rcSourceGuard cfg.rcFile ++ codexInvocationOf cfg.launchArgs).data
          ++ [squote])) = true
      refine containsSub_append_left _ _ [squote] ?_
      apply containsSub_append_right
      rw [hg]
      conv_lhs =>
        arg 2
        rw [String.data_append, escapeSingleQuotes_append,
          escapeSingleQuotes_rcGuard rc hq]
      exact containsSub_append_self _ _
    · show containsSub _ (("env OMX_TEAM_WORKER=" ++ cfg.teamName ++ "/worker-"
          ++ Nat.repr cfg.workerIndex ++ " CLAUDECODE=1 " ++ shellQuoteSingle cfg.shell
          ++ " -lc " ++ shellQuoteSingle (rcSourceGuard cfg.rcFile
              ++ claudeInvocationOf cfg)).data) = true
      rw [String.data_append]
      apply containsSub_append_left
      show containsSub _ (squote :: (escapeSingleQuotes
        (rcSourceGuard cfg.rcFile ++ claudeInvocationOf cfg).data ++ [squote])) = true
      refine containsSub_append_left _ _ [squote] ?_
      apply containsSub_append_right
      rw [hg]
      conv_lhs =>
        arg 2
        rw [String.data_append, escapeSingleQuotes_append,
          escapeSingleQuotes_rcGuard rc hq]
      exact containsSub_append_self _ _
  · cases hrc : cfg.rcFile with
    | none => simp [rcSourceGuard]
    | some rc =>
      by_cases hne : rc = ""
      · subst hne
        simp [rcSourceGuard]
      · simp only [rcSourceGuard, if_pos (show rc ≠ "" from hne)]
        constructor
        · intro he
          exfalso
          have := congrArg String.data he
          simp [String.data_append] at this
        · rintro (h | h)
          · exact absurd h (by simp)
          · exact absurd (Option.some.injEq .. ▸ h) (by simpa using hne)
  · have hinv : ∃ rest : List Char,
        (codexInvocationOf cfg.launchArgs).data = ("exec codex" : String).data ++ rest := by
      unfold codexInvocationOf
      by_cases h : (String.intercalate " " (cfg.launchArgs.map shellQuoteSingle)).length > 0
      · refine ⟨(" " ++ String.intercalate " " (cfg.launchArgs.map shellQuoteSingle)).data, ?_⟩
        rw [if_pos h]
        simp [String.data_append,
          show ("exec codex " : String) = "exec codex" ++ " " from rfl]
      · exact ⟨[], by rw [if_neg h]; simp⟩
    obtain ⟨rest, hrest⟩ := hinv
    show containsSub _ (("env OMX_TEAM_WORKER=" ++ cfg.teamName ++ "/worker-"
        ++ Nat.repr cfg.workerIndex ++ " " ++ shellQuoteSingle cfg.shell ++ " -lc "
        ++ shellQuoteSingle (rcSourceGuard cfg.rcFile
            ++ codexInvocationOf cfg.launchArgs)).data) = true
    rw [String.data_append]
    apply containsSub_append_left
    show containsSub _ (squote :: (escapeSingleQuotes
      (rcSourceGuard cfg.rcFile ++ codexInvocationOf cfg.launchArgs).data
        ++ [squote])) = true
    refine containsSub_append_left _ _ [squote] ?_
    apply containsSub_append_right
    rw [String.data_append, escapeSingleQuotes_append]
    apply containsSub_append_left
    rw [hrest, escapeSingleQuotes_append, escape_lit_exec_codex]
    exact containsSub_append_self _ _
  · show containsSub _ (("env OMX_TEAM_WORKER=" ++ cfg.teamName ++ "/worker-"
        ++ Nat.repr cfg.workerIndex ++ " CLAUDECODE=1 " ++ shellQuoteSingle cfg.shell
        ++ " -lc " ++ shellQuoteSingle (rcSourceGuard cfg.rcFile ++ ("exec claude "
            ++ String.intercalate " "
                ((claudeArgsOf cfg).map shellQuoteSingle)))).data) = true
    rw [String.data_append]
    apply containsSub_append_left
    show containsSub _ (squote :: (escapeSingleQuotes
      (rcSourceGuard cfg.rcFile ++ ("exec claude " ++ String.intercalate " "
          ((claudeArgsOf cfg).map shellQuoteSingle))).data ++ [squote])) = true
    refine containsSub_append_left _ _ [squote] ?_
    apply containsSub_append_right
    rw [String.data_append, escapeSingleQuotes_append]
    apply containsSub_append_left
    rw [String.data_append, escapeSingleQuotes_append, escape_lit_exec_claude]
    exact containsSub_append_self _ _

/-- Witness for C7: a config with a non-empty rc file path; the sourcing
guard appears in the codex command. -/
theorem spawner_buildCommand_spec_witness :
    containsSub ("if [ -f " ++ "/home/u/.zshrc" ++ " ]; then source "
        ++ "/home/u/.zshrc" ++ "; fi; ").data
      (CodexSpawner.buildCommand
        ⟨"t", "worker-1", 1, none, none, none, "/bin/zsh", some "/home/u/.zshrc", []⟩).data
      = true ∧
    containsSub ("if [ -f " ++ "/home/u/.zshrc" ++ " ]; then source "
        ++ "/home/u/.zshrc" ++ "; fi; ").data
      (ClaudeCodeSpawner.buildCommand
        ⟨"t", "worker-1", 1, none, none, none, "/bin/zsh", some "/home/u/.zshrc", []⟩).data
      = true :=
  (spawner_buildCommand_spec
      ⟨"t", "worker-1", 1, none, none, none, "/bin/zsh", some "/home/u/.zshrc", []⟩).2.2.2.2.1
    "/home/u/.zshrc" rfl (by decide) (by decide)
